import Mathlib

/-!
Shallow embedding of the streaming chat-completion ingestion engine
(`chat-client/src/lib/llm.ts`, `streamCompletion`) and of the branching
message version model it feeds (`chat-client/src/App.tsx`).

Conventions of the embedding:
* JavaScript strings become `String`; the JS truthiness test on a string
  (`if (s)`) becomes `s ≠ ""`, and `a || b` on strings becomes
  `if a = "" then b else a`.
* Optional JSON fields become `Option`; `x?.f || ''` becomes `(x.getD "")`.
* `Date.now()` timestamps become `Nat` milliseconds supplied as input data,
  so every theorem quantifies over all possible wall-clock timings.
* The state of the streaming loop is `StreamState`; in addition to the
  fields that literally appear in the source (`accumulatedContent`,
  `tokenCount`, `hasStartedReasoning`, `hasEndedReasoning`, `lastUiUpdate`)
  it carries two ghost fields used only by the specification:
  `pieces`, the list of text fragments appended to `accumulatedContent`
  with markers distinguished (so "exactly one opening marker" is exact
  even when a delta happens to contain the marker text), and
  `updates`, the list of contents passed to `onUpdate`.
  The coherence theorems below prove `accumulatedContent` is exactly the
  rendering of `pieces`, so the ghost fields add no behaviour.
-/

namespace VllmBench

/-- One fragment appended to `accumulatedContent` by the streaming loop:
either the fixed opening marker `"<think>"`, the fixed closing marker
`"</think>"`, or delta text. -/
inductive Piece where
  | openMarker : Piece
  | closeMarker : Piece
  | text : String → Piece
deriving DecidableEq, Repr

/-- The literal string a `Piece` contributes to `accumulatedContent`. -/
def Piece.render : Piece → String
  | .openMarker => "<think>"
  | .closeMarker => "</think>"
  | .text s => s

/-- Concatenation of the rendered pieces. -/
def renderPieces (l : List Piece) : String :=
  l.foldl (fun acc p => acc ++ p.render) ""

/-- One parsed streaming event, as extracted in `llm.ts`:
`deltaContent = data.choices[0]?.delta?.content || ''`,
`deltaReasoning = data.choices[0]?.delta?.reasoning_content ||
data.choices[0]?.delta?.reasoning || ''`, together with the wall-clock
time (`Date.now()`) at which the event is processed. -/
structure Ev where
  time : Nat
  deltaContent : String
  deltaReasoning : String
deriving DecidableEq, Repr

/-- The mutable state of the streaming loop in `streamCompletion`
(`llm.ts` lines 107–113), plus the ghost fields `pieces` and `updates`. -/
structure StreamState where
  accumulatedContent : String
  tokenCount : Nat
  hasStartedReasoning : Bool
  hasEndedReasoning : Bool
  lastUiUpdate : Nat
  pieces : List Piece
  updates : List String
deriving DecidableEq, Repr

/-- Initial loop state: `accumulatedContent = ''`, `tokenCount = 0`,
`hasStartedReasoning = false`, `hasEndedReasoning = false`,
`lastUiUpdate = 0`. -/
def initState : StreamState :=
  { accumulatedContent := ""
    tokenCount := 0
    hasStartedReasoning := false
    hasEndedReasoning := false
    lastUiUpdate := 0
    pieces := []
    updates := [] }

/-- The reasoning-delta block of the loop (`llm.ts` lines 138–144):
on a non-empty reasoning delta, append `"<think>"` first if reasoning has
not started yet, then append the delta. -/
def applyReasoning (st : StreamState) (deltaReasoning : String) : StreamState :=
  if deltaReasoning ≠ "" then
    let st1 :=
      if !st.hasStartedReasoning then
        { st with accumulatedContent := st.accumulatedContent ++ "<think>"
                  pieces := st.pieces ++ [Piece.openMarker]
                  hasStartedReasoning := true }
      else st
    { st1 with accumulatedContent := st1.accumulatedContent ++ deltaReasoning
               pieces := st1.pieces ++ [Piece.text deltaReasoning] }
  else st

/-- The answer-delta block of the loop (`llm.ts` lines 146–152):
on a non-empty answer delta, append `"</think>"` first if reasoning is
open and not yet closed, then append the delta. -/
def applyContent (st : StreamState) (deltaContent : String) : StreamState :=
  if deltaContent ≠ "" then
    let st1 :=
      if st.hasStartedReasoning && !st.hasEndedReasoning then
        { st with accumulatedContent := st.accumulatedContent ++ "</think>"
                  pieces := st.pieces ++ [Piece.closeMarker]
                  hasEndedReasoning := true }
      else st
    { st1 with accumulatedContent := st1.accumulatedContent ++ deltaContent
               pieces := st1.pieces ++ [Piece.text deltaContent] }
  else st

/-- The token-count and throttled-update block (`llm.ts` lines 154–165):
if the event carried any content, increment `tokenCount` and, when more
than 33 ms elapsed since the previous `onUpdate`, deliver the current
`accumulatedContent` and remember the time. -/
def applyCount (st : StreamState) (e : Ev) : StreamState :=
  if e.deltaContent ≠ "" ∨ e.deltaReasoning ≠ "" then
    let st1 := { st with tokenCount := st.tokenCount + 1 }
    if e.time - st1.lastUiUpdate > 33 then
      { st1 with updates := st1.updates ++ [st1.accumulatedContent]
                 lastUiUpdate := e.time }
    else st1
  else st

/-- Processing of one parsed event: reasoning delta first, then answer
delta, then token accounting and throttled delivery. -/
def processEvent (st : StreamState) (e : Ev) : StreamState :=
  applyCount (applyContent (applyReasoning st e.deltaReasoning) e.deltaContent) e

/-- The streaming loop over a whole sequence of parsed events. -/
def runEvents (events : List Ev) : StreamState :=
  events.foldl processEvent initState

/-- The EOF fix-up (`llm.ts` lines 172–175): if the stream ended while
reasoning was open and never closed, force-append the closing marker. -/
def finalize (st : StreamState) : StreamState :=
  if st.hasStartedReasoning && !st.hasEndedReasoning then
    { st with accumulatedContent := st.accumulatedContent ++ "</think>"
              pieces := st.pieces ++ [Piece.closeMarker] }
  else st

/-! ### SSE line level

`llm.ts` lines 125–169: an SSE line qualifies only if, after trimming, it
starts with `"data: "`; the payload is the rest; payload `"[DONE]"` is
skipped; a payload that fails to parse (the `JSON.parse` in the `try`
block throwing, or the subsequent `data.choices[0]` access throwing) is
caught, logged and skipped.  JSON parsing itself is not re-implemented:
the parser is a parameter `parse` mapping a payload to `none` (the `try`
block threw before any delta was extracted) or `some (deltaContent,
deltaReasoning)` (the two strings extracted on lines 135–136). -/

/-- The whitespace test of JavaScript `String.prototype.trim`, restricted
to the ASCII whitespace characters (space, tab, line feed, carriage
return, vertical tab, form feed) that can occur on an SSE wire line. -/
def isJsWs (c : Char) : Bool :=
  c = ' ' || c = '\t' || c = '\n' || c = '\r' || c = Char.ofNat 11 || c = Char.ofNat 12

/-- JavaScript `line.trim()`: strip leading and trailing whitespace
(computed on the character list so concrete inputs evaluate). -/
def jsTrim (s : String) : String :=
  ⟨((s.data.dropWhile isJsWs).reverse.dropWhile isJsWs).reverse⟩

/-- JavaScript `s.startsWith(pre)`, computed on the character lists. -/
def strStartsWith (s pre : String) : Bool :=
  pre.data.isPrefixOf s.data

/-- JavaScript `s.slice(n)` for an ASCII prefix: drop the first `n` characters. -/
def strDrop (s : String) (n : Nat) : String :=
  ⟨s.data.drop n⟩

/-- Processing of one raw SSE line at time `now` (`llm.ts` lines 125–168). -/
def processLine (parse : String → Option (String × String))
    (st : StreamState) (now : Nat) (line : String) : StreamState :=
  let trimmedLine := jsTrim line
  if !strStartsWith trimmedLine "data: " then st
  else
    let dataStr := strDrop trimmedLine 6
    if dataStr = "[DONE]" then st
    else
      match parse dataStr with
      | none => st
      | some (deltaContent, deltaReasoning) =>
          processEvent st ⟨now, deltaContent, deltaReasoning⟩

/-- The streaming loop over a sequence of timestamped raw SSE lines. -/
def runLines (parse : String → Option (String × String))
    (lines : List (Nat × String)) : StreamState :=
  lines.foldl (fun st l => processLine parse st l.1 l.2) initState

/-! ### Terminal notifications

`streamCompletion` invokes exactly one of `onFinish` / `onError`; the
`catch` block (`llm.ts` lines 182–184) routes every thrown exception —
including the `AbortError` raised by `fetch` or `reader.read()` when the
shared `AbortSignal` fires — to `onError`.  A JS exception is modelled by
its `name` and `message`. -/

/-- A JavaScript `Error` as observed by the callbacks: `new Error(m)` has
`name = "Error"`; the exception raised by an aborted `fetch` or
`reader.read()` has `name = "AbortError"`. -/
structure JsError where
  name : String
  message : String
deriving DecidableEq, Repr

/-- The `AbortError` exception produced when the shared `AbortSignal` is
triggered (by `AbortController.abort()` in `App.tsx`'s `handleStop`). -/
def abortError : JsError :=
  { name := "AbortError", message := "The operation was aborted." }

/-- The terminal notification of one `streamCompletion` invocation:
either `onFinish(content, stats)` (only the token count of the stats is
kept; duration and tps are wall-clock floats) or `onError(e)`. -/
inductive Terminal where
  | finish : String → Nat → Terminal
  | error : JsError → Terminal
deriving DecidableEq, Repr

/-- Whether a terminal notification is delivered through the `onError`
channel. -/
def Terminal.isError : Terminal → Bool
  | .finish _ _ => false
  | .error _ => true

/-- How the byte stream of a successful response ends: normally
(`done = true` from `reader.read()`) or with the read rejecting because
the shared token aborted mid-read. -/
inductive StreamEnd where
  | done : StreamEnd
  | abortedMidRead : StreamEnd
deriving DecidableEq, Repr

/-- The transport-level outcome of the `fetch` call, as far as
`streamCompletion` (streaming mode) can observe it: the fetch itself
rejects with `AbortError`, or it rejects with a network error, or a
response arrives with a given HTTP status, event sequence, and ending. -/
inductive TransportOutcome where
  | fetchAborted : TransportOutcome
  | networkError : String → TransportOutcome
  | response : Bool → Nat → String → List Ev → StreamEnd → TransportOutcome
deriving DecidableEq, Repr

/-- The terminal notification `streamCompletion` issues in streaming mode
for a given transport outcome (`llm.ts` lines 59–184): an aborted fetch or
an abort mid-read reaches the `catch` block with an `AbortError`; a
non-ok status throws `new Error('API Error: …')`; a normally ended stream
finalizes the accumulated content and calls `onFinish`. -/
def streamingTerminal : TransportOutcome → Terminal
  | .fetchAborted => .error abortError
  | .networkError m => .error { name := "TypeError", message := m }
  | .response ok status statusText events ending =>
      if !ok then
        .error { name := "Error"
                 message := "API Error: " ++ toString status ++ " " ++ statusText }
      else
        match ending with
        | .abortedMidRead => .error abortError
        | .done =>
            let st := finalize (runEvents events)
            .finish st.accumulatedContent st.tokenCount

/-! ### Non-streaming mode (`llm.ts` lines 74–99) -/

/-- JavaScript `a || b` on strings: `b` when `a` is falsy (empty). -/
def jsOr (a b : String) : String :=
  if a = "" then b else a

/-- The `message` object of a non-streaming response
(`data.choices[0].message`), with its three optional text fields. -/
structure NSMessage where
  content : Option String
  reasoning_content : Option String
  reasoning : Option String
deriving DecidableEq, Repr

/-- The merged field `message.reasoning_content || message.reasoning || ''`. -/
def nsReasoning (m : NSMessage) : String :=
  jsOr (m.reasoning_content.getD "") (m.reasoning.getD "")

/-- The field `message.content || ''`. -/
def nsText (m : NSMessage) : String :=
  m.content.getD ""

/-- The merged content of non-streaming mode (`llm.ts` lines 82–91):
reasoning, when non-empty, wrapped in the marker pair and prepended. -/
def nsContent (m : NSMessage) : String :=
  if nsReasoning m ≠ "" then
    "<think>" ++ nsReasoning m ++ "</think>" ++ nsText m
  else nsText m

/-- The token count of non-streaming mode (`llm.ts` line 94):
`data.usage?.completion_tokens || Math.ceil(content.length / 4)`.
A missing `usage`/`completion_tokens` is `none`; the JS `||` treats the
number `0` as falsy, so a present `0` also falls back to the estimate. -/
def nsTokenCount (completionTokens : Option Nat) (content : String) : Nat :=
  match completionTokens with
  | some n => if n = 0 then (content.length + 3) / 4 else n
  | none => (content.length + 3) / 4

/-- The terminal notification of non-streaming mode (`llm.ts` lines
69–99): non-ok status and a missing `message` both throw (reaching
`onError`); otherwise `onFinish` fires immediately with the merged
content and the token count. -/
def nonStreamingTerminal (ok : Bool) (status : Nat) (statusText : String)
    (message : Option NSMessage) (completionTokens : Option Nat) : Terminal :=
  if !ok then
    .error { name := "Error"
             message := "API Error: " ++ toString status ++ " " ++ statusText }
  else
    match message with
    | none => .error { name := "Error", message := "Invalid response: no message in choices" }
    | some m => .finish (nsContent m) (nsTokenCount completionTokens (nsContent m))

/-! ### Version tree and generation controller (`App.tsx`)

The `Message` interface of `lib/db.ts` is reconstructed from its uses:
`role`, `content`, optional `images`, optional `stats`
(`{totalTokens, generationTime, tokensPerSecond}`), optional `siblings`
(alternate `{role, content, stats}` entries, as created by
`handleRegenerate`) and optional `siblingIndex`.  JS numbers in stats are
modelled as rationals (they are only moved and compared, never computed
with, in the claims below). -/

/-- Message role. -/
inductive Role where
  | system : Role
  | user : Role
  | assistant : Role
deriving DecidableEq, Repr

/-- Per-turn generation statistics as stored by `App.tsx`
(`{totalTokens, generationTime, tokensPerSecond}`). -/
structure MsgStats where
  totalTokens : Nat
  generationTime : ℚ
  tokensPerSecond : ℚ
deriving DecidableEq, Repr

/-- One entry of a turn's `siblings` array.  `handleRegenerate` creates
entries of shape `{role, content, stats}`; the dual-write in
`onUpdate`/`onFinish` spreads the old entry and overwrites `content` and
`stats`, preserving `role`. -/
structure SibEntry where
  role : Role
  content : String
  stats : Option MsgStats
deriving DecidableEq, Repr

/-- One conversational turn. -/
structure Message where
  role : Role
  content : String
  images : List String := []
  stats : Option MsgStats := none
  siblings : Option (List SibEntry) := none
  siblingIndex : Option Nat := none
deriving DecidableEq, Repr

/-- The shared mutation of `onUpdate` and `onFinish`
(`App.tsx` lines 184–199 and 210–224): write `content` and `stats` into
the turn's top-level fields and, when `siblings` and `siblingIndex` are
both present, overwrite `siblings[siblingIndex]` with
`{...old, content, stats}`.  (In JS an out-of-range `siblingIndex` would
extend the array; per the §3 data-model invariant `siblingIndex` is a
valid index whenever `siblings` exists, and the out-of-range write is
left as the identity here.) -/
def writeActive (msg : Message) (content : String) (stats : MsgStats) : Message :=
  let msg1 := { msg with content := content, stats := some stats }
  match msg1.siblings, msg1.siblingIndex with
  | some sibs, some i =>
      match sibs.get? i with
      | some old =>
          { msg1 with
              siblings := some (sibs.set i { old with content := content, stats := some stats }) }
      | none => msg1
  | _, _ => msg1

/-- The whole `setMessages` updater of `onUpdate`/`onFinish`
(`App.tsx` lines 176–202 / 206–228): compute
`actualIndex = targetIndex ?? prev.length - 1` and, when that turn
exists, apply `writeActive` to it. -/
def applyWrite (messages : List Message) (targetIndex : Option Nat)
    (content : String) (stats : MsgStats) : List Message :=
  let actualIndex := targetIndex.getD (messages.length - 1)
  match messages.get? actualIndex with
  | some msg => messages.set actualIndex (writeActive msg content stats)
  | none => messages

/-- The `onError` callback of `processGeneration`
(`App.tsx` lines 242–266): an `AbortError` returns early, leaving the
message list untouched; any other error builds
`{role: 'assistant', content: '**Error**: ' + message}` and either
replaces the target turn with it (when `targetIndex` is defined and the
turn exists) or pushes it at the end. -/
def onErrorUpdate (messages : List Message) (targetIndex : Option Nat)
    (e : JsError) : List Message :=
  if e.name = "AbortError" then messages
  else
    let errorMsg : Message := { role := .assistant, content := "**Error**: " ++ e.message }
    let actualIndex := targetIndex.getD (messages.length - 1)
    match targetIndex with
    | some _ =>
        if actualIndex < messages.length then messages.set actualIndex errorMsg
        else messages ++ [errorMsg]
    | none => messages ++ [errorMsg]

/-- What `handleRegenerate` does besides updating the message list:
nothing, or start a generation targeting an existing turn index with a
given request context, or start a fresh generation (user-turn branch). -/
inductive RegenOutcome where
  | noop : RegenOutcome
  | regenerate : List Message → Nat → RegenOutcome
  | generateFresh : List Message → RegenOutcome
deriving DecidableEq, Repr

/-- The handler `handleRegenerate` (`App.tsx` lines 302–345) as a function of the
in-flight flag, whether a chat id is set, and the message list; returns
the updated message list and the generation it starts, if any. -/
def handleRegenerate (isLoading : Bool) (hasChatId : Bool)
    (messages : List Message) : List Message × RegenOutcome :=
  if isLoading then (messages, .noop)
  else
    match messages.getLast? with
    | none => (messages, .noop)
    | some lastMsg =>
        let lastMsgIndex := messages.length - 1
        match lastMsg.role with
        | .assistant =>
            let withSibs :=
              match lastMsg.siblings with
              | none =>
                  { lastMsg with
                      siblings := some [{ role := lastMsg.role
                                          content := lastMsg.content
                                          stats := lastMsg.stats }]
                      siblingIndex := some 0 }
              | some _ => lastMsg
            let newSibling : SibEntry := { role := .assistant, content := "", stats := none }
            let sibs := (withSibs.siblings.getD []) ++ [newSibling]
            let updatedMsg :=
              { withSibs with
                  siblings := some sibs
                  siblingIndex := some (sibs.length - 1)
                  content := ""
                  stats := none }
            let newMessages := messages.set lastMsgIndex updatedMsg
            if hasChatId then
              (newMessages, .regenerate messages.dropLast lastMsgIndex)
            else (newMessages, .noop)
        | .user =>
            if hasChatId then (messages, .generateFresh messages)
            else (messages, .noop)
        | .system => (messages, .noop)

/-- The handler `handleVersionChange` (`App.tsx` lines 347–371): select sibling
`newVersionIndex` of the turn at `index`.  Returns `none` when the turn
itself does not exist (the JS code would throw reading `.siblings` of
`undefined`); otherwise returns the new message list and whether the
session was persisted.  Missing `siblings` or an invalid version index
return before any mutation. -/
def handleVersionChange (messages : List Message) (index newVersionIndex : Nat)
    (hasChatId : Bool) : Option (List Message × Bool) :=
  match messages.get? index with
  | none => none
  | some msg =>
      match msg.siblings with
      | none => some (messages, false)
      | some sibs =>
          match sibs.get? newVersionIndex with
          | none => some (messages, false)
          | some targetVersion =>
              let updatedMsg :=
                { msg with
                    content := targetVersion.content
                    stats := targetVersion.stats
                    siblingIndex := some newVersionIndex }
              some (messages.set index updatedMsg, hasChatId)

/-! ### Controller state (single-flight behaviour)

`App.tsx` keeps one app-wide `isLoading` flag and one app-wide
`abortControllerRef` for the single visible conversation; `sessions` is
the stored list of conversations. -/

/-- The controller state of `App.tsx` relevant to the single-flight
question: the global `isLoading` flag, the current chat id, the visible
message list, and the stored sessions. -/
structure CtrlState where
  isLoading : Bool
  currentChatId : Option String
  messages : List Message
  sessions : List (String × List Message)
deriving DecidableEq, Repr

/-- The unconditional start of `processGeneration`
(`App.tsx` lines 151–161): set `isLoading := true` and, when no target
index is given, append a new empty assistant turn.  No in-flight check
is performed. -/
def processGenerationStart (st : CtrlState) (targetIndex : Option Nat) : CtrlState :=
  let st1 := { st with isLoading := true }
  match targetIndex with
  | none => { st1 with messages := st1.messages ++ [{ role := .assistant, content := "" }] }
  | some _ => st1

/-- The handler `handleSendMessage` (`App.tsx` lines 270–300) restricted to its state
effects: append the user turn, create or update the session (`newId` is
the `Date.now()`-based id used when no chat is active), then call
`processGeneration` with no target index.  It performs no `isLoading`
check. -/
def handleSendMessage (st : CtrlState) (newId : String) (content : String)
    (images : List String := []) : CtrlState :=
  let userMsg : Message := { role := .user, content := content, images := images }
  let newMessages := st.messages ++ [userMsg]
  let st1 :=
    match st.currentChatId with
    | none =>
        { st with
            messages := newMessages
            currentChatId := some newId
            sessions := st.sessions ++ [(newId, newMessages)] }
    | some id =>
        { st with
            messages := newMessages
            sessions := st.sessions.map (fun (s : String × List Message) => if s.1 = id then (s.1, newMessages) else s) }
  processGenerationStart st1 none

/-- The handler `handleSelectChat` (`App.tsx` lines 116–141) restricted to its state
effects: a no-op while `isLoading`; otherwise saves the current messages
into the current session and loads the target session when it exists and
differs from the current one. -/
def handleSelectChat (st : CtrlState) (id : String) : CtrlState :=
  if st.isLoading then st
  else
    let st1 :=
      match st.currentChatId with
      | none => st
      | some cur =>
          { st with
              sessions := st.sessions.map (fun (s : String × List Message) => if s.1 = cur then (s.1, st.messages) else s) }
    match st1.sessions.find? (fun s => s.1 = id) with
    | none => st1
    | some target =>
        if st1.currentChatId = some id then st1
        else { st1 with currentChatId := some id, messages := target.2 }

/-! ## Specification predicates -/

/-- A piece list without any marker. -/
def noMarkers (l : List Piece) : Prop :=
  Piece.openMarker ∉ l ∧ Piece.closeMarker ∉ l

/-- A piece list holding exactly one opening marker and no closing
marker. -/
def openOnly (l : List Piece) : Prop :=
  ∃ a b, l = a ++ Piece.openMarker :: b ∧ noMarkers a ∧ noMarkers b

/-- A piece list holding exactly one opening marker and exactly one
closing marker, the opening one first. -/
def markerShape (l : List Piece) : Prop :=
  ∃ a b c, l = a ++ Piece.openMarker :: (b ++ Piece.closeMarker :: c) ∧
    noMarkers a ∧ noMarkers b ∧ noMarkers c

/-- String `a` is a prefix of string `b`: `b` extends `a` by appending. -/
def strPrefix (a b : String) : Prop :=
  ∃ s, b = a ++ s

/-- The state invariant tying the reasoning flags to the marker structure
of the emitted pieces. -/
def MarkerInv (st : StreamState) : Prop :=
  (st.hasStartedReasoning = false → st.hasEndedReasoning = false ∧ noMarkers st.pieces) ∧
  (st.hasStartedReasoning = true → st.hasEndedReasoning = false → openOnly st.pieces) ∧
  (st.hasEndedReasoning = true → st.hasStartedReasoning = true ∧ markerShape st.pieces)

/-- Coherence: `accumulatedContent` is exactly the concatenation of the ghost
pieces. -/
def Coh (st : StreamState) : Prop :=
  st.accumulatedContent = renderPieces st.pieces

/-- The invariant of the delivered partial contents: they are pairwise
prefix-ordered and each is a prefix of the current accumulated content. -/
def UpdInv (st : StreamState) : Prop :=
  st.updates.Pairwise strPrefix ∧
  ∀ u ∈ st.updates, strPrefix u st.accumulatedContent

/-- The terminal notification of a streaming run whose byte stream
ended normally (`done = true`): `onFinish` with the finalized content and
token count. -/
def lineStreamTerminal (parse : String → Option (String × String))
    (lines : List (Nat × String)) : Terminal :=
  let st := finalize (runLines parse lines)
  .finish st.accumulatedContent st.tokenCount

/-- A concrete assistant turn with a one-entry siblings list, used as a
test fixture by the witnesses below. -/
def msgWithOneSibling : Message :=
  { role := .assistant
    content := "a"
    siblings := some [{ role := .assistant, content := "a", stats := none }]
    siblingIndex := some 0 }

/-! ## Lemmas about the marker predicates -/

theorem noMarkers_nil : noMarkers [] := by
  constructor <;> simp

theorem noMarkers_append_text {l : List Piece} (h : noMarkers l) (s : String) :
    noMarkers (l ++ [Piece.text s]) := by
  obtain ⟨h1, h2⟩ := h
  constructor <;> simp_all

theorem openOnly_append_text {l : List Piece} (h : openOnly l) (s : String) :
    openOnly (l ++ [Piece.text s]) := by
  obtain ⟨a, b, rfl, ha, hb⟩ := h
  exact ⟨a, b ++ [Piece.text s], by simp, ha, noMarkers_append_text hb s⟩

theorem markerShape_append_text {l : List Piece} (h : markerShape l) (s : String) :
    markerShape (l ++ [Piece.text s]) := by
  obtain ⟨a, b, c, rfl, ha, hb, hc⟩ := h
  exact ⟨a, b, c ++ [Piece.text s], by simp, ha, hb, noMarkers_append_text hc s⟩

theorem openOnly_of_noMarkers {l : List Piece} (h : noMarkers l) :
    openOnly (l ++ [Piece.openMarker]) :=
  ⟨l, [], by simp, h, noMarkers_nil⟩

theorem markerShape_of_openOnly {l : List Piece} (h : openOnly l) :
    markerShape (l ++ [Piece.closeMarker]) := by
  obtain ⟨a, b, rfl, ha, hb⟩ := h
  exact ⟨a, b, [], by simp, ha, hb, noMarkers_nil⟩

theorem strPrefix_rfl (a : String) : strPrefix a a :=
  ⟨"", (String.append_empty a).symm⟩

theorem strPrefix_append (a s : String) : strPrefix a (a ++ s) :=
  ⟨s, rfl⟩

theorem strPrefix_trans {a b c : String} (h1 : strPrefix a b) (h2 : strPrefix b c) :
    strPrefix a c := by
  obtain ⟨s, rfl⟩ := h1
  obtain ⟨t, rfl⟩ := h2
  exact ⟨s ++ t, String.append_assoc a s t⟩

/-! ## Equation lemmas for the three blocks of the streaming loop -/

theorem applyReasoning_empty (st : StreamState) : applyReasoning st "" = st := by
  simp [applyReasoning]

theorem applyReasoning_first {st : StreamState} {dr : String} (hdr : dr ≠ "")
    (hs : st.hasStartedReasoning = false) :
    applyReasoning st dr =
      { st with accumulatedContent := st.accumulatedContent ++ "<think>" ++ dr
                pieces := st.pieces ++ [Piece.openMarker] ++ [Piece.text dr]
                hasStartedReasoning := true } := by
  unfold applyReasoning
  rw [if_pos hdr]
  simp [hs]

theorem applyReasoning_next {st : StreamState} {dr : String} (hdr : dr ≠ "")
    (hs : st.hasStartedReasoning = true) :
    applyReasoning st dr =
      { st with accumulatedContent := st.accumulatedContent ++ dr
                pieces := st.pieces ++ [Piece.text dr] } := by
  unfold applyReasoning
  rw [if_pos hdr]
  simp [hs]

theorem applyContent_empty (st : StreamState) : applyContent st "" = st := by
  simp [applyContent]

theorem applyContent_closing {st : StreamState} {dc : String} (hdc : dc ≠ "")
    (hs : st.hasStartedReasoning = true) (he : st.hasEndedReasoning = false) :
    applyContent st dc =
      { st with accumulatedContent := st.accumulatedContent ++ "</think>" ++ dc
                pieces := st.pieces ++ [Piece.closeMarker] ++ [Piece.text dc]
                hasEndedReasoning := true } := by
  unfold applyContent
  rw [if_pos hdc]
  simp [hs, he]

theorem applyContent_plain {st : StreamState} {dc : String} (hdc : dc ≠ "")
    (hse : (st.hasStartedReasoning && !st.hasEndedReasoning) = false) :
    applyContent st dc =
      { st with accumulatedContent := st.accumulatedContent ++ dc
                pieces := st.pieces ++ [Piece.text dc] } := by
  unfold applyContent
  rw [if_pos hdc]
  simp [hse]

theorem applyCount_idle {st : StreamState} {e : Ev}
    (h : ¬(e.deltaContent ≠ "" ∨ e.deltaReasoning ≠ "")) : applyCount st e = st := by
  unfold applyCount
  rw [if_neg h]

theorem applyCount_emit {st : StreamState} {e : Ev}
    (h : e.deltaContent ≠ "" ∨ e.deltaReasoning ≠ "")
    (ht : e.time - st.lastUiUpdate > 33) :
    applyCount st e =
      { st with tokenCount := st.tokenCount + 1
                updates := st.updates ++ [st.accumulatedContent]
                lastUiUpdate := e.time } := by
  unfold applyCount
  rw [if_pos h]
  simp [ht]

theorem applyCount_skip {st : StreamState} {e : Ev}
    (h : e.deltaContent ≠ "" ∨ e.deltaReasoning ≠ "")
    (ht : ¬(e.time - st.lastUiUpdate > 33)) :
    applyCount st e = { st with tokenCount := st.tokenCount + 1 } := by
  unfold applyCount
  rw [if_pos h]
  simp [ht]

/-! ## The marker invariant of the streaming loop -/

theorem markerInv_init : MarkerInv initState := by
  refine ⟨fun _ => ⟨rfl, noMarkers_nil⟩, fun h _ => ?_, fun h => ?_⟩ <;>
    simp [initState] at h

theorem markerInv_applyReasoning {st : StreamState} (h : MarkerInv st)
    (dr : String) : MarkerInv (applyReasoning st dr) := by
  obtain ⟨h0, h1, h2⟩ := h
  by_cases hdr : dr = ""
  · rw [hdr, applyReasoning_empty]
    exact ⟨h0, h1, h2⟩
  · cases hs : st.hasStartedReasoning
    · obtain ⟨he, hnm⟩ := h0 hs
      rw [applyReasoning_first hdr hs]
      refine ⟨fun hc => by simp at hc, fun _ _ => ?_, fun hend => by simp [he] at hend⟩
      simpa [List.append_assoc] using openOnly_append_text (openOnly_of_noMarkers hnm) dr
    · rw [applyReasoning_next hdr hs]
      cases he : st.hasEndedReasoning
      · refine ⟨fun hc => by simp [hs] at hc, fun _ _ => ?_, fun hend => by simp [he] at hend⟩
        exact openOnly_append_text (h1 hs he) dr
      · refine ⟨fun hc => by simp [hs] at hc, fun _ hend => by simp [he] at hend, fun _ => ?_⟩
        exact ⟨hs, markerShape_append_text (h2 he).2 dr⟩

theorem markerInv_applyContent {st : StreamState} (h : MarkerInv st)
    (dc : String) : MarkerInv (applyContent st dc) := by
  obtain ⟨h0, h1, h2⟩ := h
  by_cases hdc : dc = ""
  · rw [hdc, applyContent_empty]
    exact ⟨h0, h1, h2⟩
  · cases hse : st.hasStartedReasoning && !st.hasEndedReasoning
    · rw [applyContent_plain hdc hse]
      refine ⟨fun hc => ?_, fun hs he => ?_, fun hend => ?_⟩
      · obtain ⟨he, hnm⟩ := h0 hc
        exact ⟨he, noMarkers_append_text hnm dc⟩
      · exact openOnly_append_text (h1 hs he) dc
      · exact ⟨(h2 hend).1, markerShape_append_text (h2 hend).2 dc⟩
    · rw [Bool.and_eq_true, Bool.not_eq_true'] at hse
      obtain ⟨hs, he⟩ := hse
      rw [applyContent_closing hdc hs he]
      refine ⟨fun hc => by simp [hs] at hc, fun _ hend => by simp at hend, fun _ => ⟨hs, ?_⟩⟩
      simpa [List.append_assoc] using
        markerShape_append_text (markerShape_of_openOnly (h1 hs he)) dc

theorem applyCount_pieces (st : StreamState) (e : Ev) :
    (applyCount st e).pieces = st.pieces ∧
    (applyCount st e).hasStartedReasoning = st.hasStartedReasoning ∧
    (applyCount st e).hasEndedReasoning = st.hasEndedReasoning ∧
    (applyCount st e).accumulatedContent = st.accumulatedContent := by
  by_cases h : e.deltaContent ≠ "" ∨ e.deltaReasoning ≠ ""
  · by_cases ht : e.time - st.lastUiUpdate > 33
    · rw [applyCount_emit h ht]
      exact ⟨rfl, rfl, rfl, rfl⟩
    · rw [applyCount_skip h ht]
      exact ⟨rfl, rfl, rfl, rfl⟩
  · rw [applyCount_idle h]
    exact ⟨rfl, rfl, rfl, rfl⟩

theorem markerInv_applyCount {st : StreamState} (h : MarkerInv st) (e : Ev) :
    MarkerInv (applyCount st e) := by
  obtain ⟨hp, hs, he, -⟩ := applyCount_pieces st e
  obtain ⟨h0, h1, h2⟩ := h
  rw [MarkerInv, hp, hs, he]
  exact ⟨h0, h1, h2⟩

theorem markerInv_processEvent {st : StreamState} (h : MarkerInv st) (e : Ev) :
    MarkerInv (processEvent st e) :=
  markerInv_applyCount (markerInv_applyContent (markerInv_applyReasoning h _) _) e

theorem markerInv_foldl (events : List Ev) {st : StreamState} (h : MarkerInv st) :
    MarkerInv (events.foldl processEvent st) := by
  induction events generalizing st with
  | nil => exact h
  | cons e es ih => exact ih (markerInv_processEvent h e)

theorem markerInv_runEvents (events : List Ev) : MarkerInv (runEvents events) :=
  markerInv_foldl events markerInv_init

/-! ## Reasoning-started flag lemmas -/

theorem applyReasoning_started_mono {st : StreamState}
    (h : st.hasStartedReasoning = true) (dr : String) :
    (applyReasoning st dr).hasStartedReasoning = true := by
  by_cases hdr : dr = ""
  · rw [hdr, applyReasoning_empty]; exact h
  · rw [applyReasoning_next hdr h]; exact h

theorem applyReasoning_started_of_ne {st : StreamState} {dr : String} (hdr : dr ≠ "") :
    (applyReasoning st dr).hasStartedReasoning = true := by
  cases hs : st.hasStartedReasoning
  · rw [applyReasoning_first hdr hs]
  · exact applyReasoning_started_mono hs dr

theorem applyContent_started (st : StreamState) (dc : String) :
    (applyContent st dc).hasStartedReasoning = st.hasStartedReasoning := by
  by_cases hdc : dc = ""
  · rw [hdc, applyContent_empty]
  · cases hse : st.hasStartedReasoning && !st.hasEndedReasoning
    · rw [applyContent_plain hdc hse]
    · rw [Bool.and_eq_true, Bool.not_eq_true'] at hse
      rw [applyContent_closing hdc hse.1 hse.2]

theorem processEvent_started_mono {st : StreamState}
    (h : st.hasStartedReasoning = true) (e : Ev) :
    (processEvent st e).hasStartedReasoning = true := by
  unfold processEvent
  rw [(applyCount_pieces _ e).2.1, applyContent_started]
  exact applyReasoning_started_mono h _

theorem processEvent_started_of_reasoning {st : StreamState} {e : Ev}
    (h : e.deltaReasoning ≠ "") :
    (processEvent st e).hasStartedReasoning = true := by
  unfold processEvent
  rw [(applyCount_pieces _ e).2.1, applyContent_started]
  exact applyReasoning_started_of_ne h

theorem foldl_started_mono (l : List Ev) {st : StreamState}
    (h : st.hasStartedReasoning = true) :
    (l.foldl processEvent st).hasStartedReasoning = true := by
  induction l generalizing st with
  | nil => exact h
  | cons e es ih => exact ih (processEvent_started_mono h e)

theorem foldl_started_of_mem (l : List Ev) {st : StreamState}
    (h : ∃ e ∈ l, e.deltaReasoning ≠ "") :
    (l.foldl processEvent st).hasStartedReasoning = true := by
  induction l generalizing st with
  | nil => simp at h
  | cons e es ih =>
      by_cases hdr : e.deltaReasoning = ""
      · obtain ⟨e', he', hne⟩ := h
        rcases List.mem_cons.mp he' with rfl | hmem
        · exact absurd hdr hne
        · exact ih ⟨e', hmem, hne⟩
      · exact foldl_started_mono es (processEvent_started_of_reasoning hdr)

theorem runEvents_started {events : List Ev}
    (h : ∃ e ∈ events, e.deltaReasoning ≠ "") :
    (runEvents events).hasStartedReasoning = true :=
  foldl_started_of_mem events h

/-! ## Coherence: the accumulated content renders the ghost pieces -/

theorem renderPieces_append (l : List Piece) (p : Piece) :
    renderPieces (l ++ [p]) = renderPieces l ++ p.render := by
  simp [renderPieces, List.foldl_append]

theorem coh_init : Coh initState := rfl

theorem coh_applyReasoning {st : StreamState} (h : Coh st) (dr : String) :
    Coh (applyReasoning st dr) := by
  by_cases hdr : dr = ""
  · rw [hdr, applyReasoning_empty]; exact h
  · cases hs : st.hasStartedReasoning
    · rw [applyReasoning_first hdr hs]
      show _ ++ "<think>" ++ dr = renderPieces (_ ++ [Piece.openMarker] ++ [Piece.text dr])
      rw [renderPieces_append, renderPieces_append, ← h]
      rfl
    · rw [applyReasoning_next hdr hs]
      show _ ++ dr = renderPieces (_ ++ [Piece.text dr])
      rw [renderPieces_append, ← h]
      rfl

theorem coh_applyContent {st : StreamState} (h : Coh st) (dc : String) :
    Coh (applyContent st dc) := by
  by_cases hdc : dc = ""
  · rw [hdc, applyContent_empty]; exact h
  · cases hse : st.hasStartedReasoning && !st.hasEndedReasoning
    · rw [applyContent_plain hdc hse]
      show _ ++ dc = renderPieces (_ ++ [Piece.text dc])
      rw [renderPieces_append, ← h]
      rfl
    · rw [Bool.and_eq_true, Bool.not_eq_true'] at hse
      rw [applyContent_closing hdc hse.1 hse.2]
      show _ ++ "</think>" ++ dc = renderPieces (_ ++ [Piece.closeMarker] ++ [Piece.text dc])
      rw [renderPieces_append, renderPieces_append, ← h]
      rfl

theorem coh_applyCount {st : StreamState} (h : Coh st) (e : Ev) :
    Coh (applyCount st e) := by
  obtain ⟨hp, -, -, hc⟩ := applyCount_pieces st e
  rw [Coh, hp, hc]
  exact h

theorem coh_processEvent {st : StreamState} (h : Coh st) (e : Ev) :
    Coh (processEvent st e) :=
  coh_applyCount (coh_applyContent (coh_applyReasoning h _) _) e

theorem coh_runEvents (events : List Ev) : Coh (runEvents events) := by
  have : ∀ (l : List Ev) (st : StreamState), Coh st → Coh (l.foldl processEvent st) := by
    intro l
    induction l with
    | nil => exact fun st h => h
    | cons e es ih => exact fun st h => ih _ (coh_processEvent h e)
  exact this events initState coh_init

theorem coh_finalize {st : StreamState} (h : Coh st) : Coh (finalize st) := by
  unfold finalize
  split
  · show _ ++ "</think>" = renderPieces (_ ++ [Piece.closeMarker])
    rw [renderPieces_append, ← h]
    rfl
  · exact h

/-! ## Finalize equations -/

theorem finalize_forceClose {st : StreamState} (hs : st.hasStartedReasoning = true)
    (he : st.hasEndedReasoning = false) :
    finalize st =
      { st with accumulatedContent := st.accumulatedContent ++ "</think>"
                pieces := st.pieces ++ [Piece.closeMarker] } := by
  unfold finalize
  rw [if_pos (by rw [hs, he]; rfl)]

theorem finalize_id {st : StreamState}
    (h : (st.hasStartedReasoning && !st.hasEndedReasoning) = false) :
    finalize st = st := by
  unfold finalize
  rw [if_neg (by rw [h]; exact Bool.false_ne_true)]

/-! ## Update-delivery monotonicity -/

theorem applyReasoning_updates (st : StreamState) (dr : String) :
    (applyReasoning st dr).updates = st.updates := by
  by_cases hdr : dr = ""
  · rw [hdr, applyReasoning_empty]
  · cases hs : st.hasStartedReasoning
    · rw [applyReasoning_first hdr hs]
    · rw [applyReasoning_next hdr hs]

theorem applyContent_updates (st : StreamState) (dc : String) :
    (applyContent st dc).updates = st.updates := by
  by_cases hdc : dc = ""
  · rw [hdc, applyContent_empty]
  · cases hse : st.hasStartedReasoning && !st.hasEndedReasoning
    · rw [applyContent_plain hdc hse]
    · rw [Bool.and_eq_true, Bool.not_eq_true'] at hse
      rw [applyContent_closing hdc hse.1 hse.2]

theorem applyReasoning_content_extends (st : StreamState) (dr : String) :
    strPrefix st.accumulatedContent (applyReasoning st dr).accumulatedContent := by
  by_cases hdr : dr = ""
  · rw [hdr, applyReasoning_empty]; exact strPrefix_rfl _
  · cases hs : st.hasStartedReasoning
    · rw [applyReasoning_first hdr hs]
      exact strPrefix_trans (strPrefix_append _ "<think>") (strPrefix_append _ dr)
    · rw [applyReasoning_next hdr hs]
      exact strPrefix_append _ dr

theorem applyContent_content_extends (st : StreamState) (dc : String) :
    strPrefix st.accumulatedContent (applyContent st dc).accumulatedContent := by
  by_cases hdc : dc = ""
  · rw [hdc, applyContent_empty]; exact strPrefix_rfl _
  · cases hse : st.hasStartedReasoning && !st.hasEndedReasoning
    · rw [applyContent_plain hdc hse]
      exact strPrefix_append _ dc
    · rw [Bool.and_eq_true, Bool.not_eq_true'] at hse
      rw [applyContent_closing hdc hse.1 hse.2]
      exact strPrefix_trans (strPrefix_append _ "</think>") (strPrefix_append _ dc)

theorem processEvent_content_extends (st : StreamState) (e : Ev) :
    strPrefix st.accumulatedContent (processEvent st e).accumulatedContent := by
  unfold processEvent
  rw [(applyCount_pieces _ e).2.2.2]
  exact strPrefix_trans (applyReasoning_content_extends st _)
    (applyContent_content_extends _ _)

theorem updInv_init : UpdInv initState :=
  ⟨List.Pairwise.nil, by intro u hu; simp [initState] at hu⟩

theorem updInv_extend {st : StreamState} (h : UpdInv st) {st' : StreamState}
    (hu : st'.updates = st.updates)
    (hc : strPrefix st.accumulatedContent st'.accumulatedContent) : UpdInv st' := by
  obtain ⟨hpw, hpre⟩ := h
  rw [UpdInv, hu]
  exact ⟨hpw, fun u hmem => strPrefix_trans (hpre u hmem) hc⟩

theorem updInv_applyCount {st : StreamState} (h : UpdInv st) (e : Ev) :
    UpdInv (applyCount st e) := by
  obtain ⟨hpw, hpre⟩ := h
  by_cases hd : e.deltaContent ≠ "" ∨ e.deltaReasoning ≠ ""
  · by_cases ht : e.time - st.lastUiUpdate > 33
    · rw [applyCount_emit hd ht]
      refine ⟨?_, ?_⟩
      · rw [List.pairwise_append]
        exact ⟨hpw, List.pairwise_singleton _ _,
          fun u hu v hv => by rw [List.mem_singleton] at hv; rw [hv]; exact hpre u hu⟩
      · intro u hu
        rcases List.mem_append.mp hu with hmem | hmem
        · exact hpre u hmem
        · rw [List.mem_singleton] at hmem
          rw [hmem]
          exact strPrefix_rfl _
    · rw [applyCount_skip hd ht]
      exact ⟨hpw, hpre⟩
  · rw [applyCount_idle hd]
    exact ⟨hpw, hpre⟩

theorem updInv_processEvent {st : StreamState} (h : UpdInv st) (e : Ev) :
    UpdInv (processEvent st e) := by
  have h1 : UpdInv (applyContent (applyReasoning st e.deltaReasoning) e.deltaContent) := by
    refine updInv_extend (updInv_extend h (applyReasoning_updates st _)
      (applyReasoning_content_extends st _)) (applyContent_updates _ _)
      (applyContent_content_extends _ _)
  exact updInv_applyCount h1 e

theorem updInv_runEvents (events : List Ev) : UpdInv (runEvents events) := by
  have : ∀ (l : List Ev) (st : StreamState), UpdInv st → UpdInv (l.foldl processEvent st) := by
    intro l
    induction l with
    | nil => exact fun st h => h
    | cons e es ih => exact fun st h => ih _ (updInv_processEvent h e)
  exact this events initState updInv_init

theorem updInv_finalize {st : StreamState} (h : UpdInv st) : UpdInv (finalize st) := by
  cases hse : st.hasStartedReasoning && !st.hasEndedReasoning
  · rw [finalize_id hse]
    exact h
  · rw [Bool.and_eq_true, Bool.not_eq_true'] at hse
    rw [finalize_forceClose hse.1 hse.2]
    exact updInv_extend h rfl (strPrefix_append _ "</think>")

/-! ## Claim theorems -/

/-- C1: for every streaming event sequence containing at least one
non-empty reasoning delta, the final accumulated content produced by
`streamCompletion` contains exactly one opening marker and exactly one
closing marker, in that order — the trace of appended fragments is
`a ++ [openMarker] ++ b ++ [closeMarker] ++ c` with no marker inside
`a`, `b`, `c`, and the accumulated content is exactly the rendering of
that trace — regardless of how reasoning and answer deltas interleave,
and even if the stream ends while reasoning is still open (the closing
marker is force-appended by `finalize`). -/
theorem C1_markers_exactly_once_in_order (events : List Ev)
    (h : ∃ e ∈ events, e.deltaReasoning ≠ "") :
    markerShape (finalize (runEvents events)).pieces ∧
    (finalize (runEvents events)).accumulatedContent =
      renderPieces (finalize (runEvents events)).pieces := by
  have hstart := runEvents_started h
  have hinv := markerInv_runEvents events
  have hcoh := coh_finalize (coh_runEvents events)
  refine ⟨?_, hcoh⟩
  cases he : (runEvents events).hasEndedReasoning
  · rw [finalize_forceClose hstart he]
    exact markerShape_of_openOnly (hinv.2.1 hstart he)
  · rw [finalize_id (by rw [he]; simp)]
    exact (hinv.2.2 he).2

/-- Witness for C1 at a concrete input: one reasoning delta followed by
one answer delta (and one event interleaved with both channels). -/
theorem C1_markers_exactly_once_in_order_witness :
    (∃ e ∈ [Ev.mk 100 "" "Let me think", Ev.mk 120 "4" ", hard", Ev.mk 200 "2" ""],
        e.deltaReasoning ≠ "") ∧
    (markerShape (finalize (runEvents
        [Ev.mk 100 "" "Let me think", Ev.mk 120 "4" ", hard", Ev.mk 200 "2" ""])).pieces ∧
      (finalize (runEvents
        [Ev.mk 100 "" "Let me think", Ev.mk 120 "4" ", hard", Ev.mk 200 "2" ""])).accumulatedContent =
        renderPieces (finalize (runEvents
          [Ev.mk 100 "" "Let me think", Ev.mk 120 "4" ", hard", Ev.mk 200 "2" ""])).pieces) :=
  ⟨by decide, C1_markers_exactly_once_in_order _ (by decide)⟩

/-- C2: within a single generation, every partial content delivered by an
`onUpdate` notification is a prefix of every later partial content
(`updates` is pairwise prefix-ordered in delivery order) and a prefix of
the final content delivered by `onFinish`: the accumulated content only
grows by appending, never shrinks, and partial results are never
retracted or reordered. -/
theorem C2_partials_prefix_monotone (events : List Ev) :
    (finalize (runEvents events)).updates.Pairwise strPrefix ∧
    ∀ u ∈ (finalize (runEvents events)).updates,
      strPrefix u (finalize (runEvents events)).accumulatedContent :=
  updInv_finalize (updInv_runEvents events)

/-- A line whose payload the parser rejects — as well as a non-`data: `
line or the `[DONE]` sentinel — leaves the loop state unchanged. -/
theorem processLine_unparsable (parse : String → Option (String × String))
    (st : StreamState) (now : Nat) (line : String)
    (hparse : parse (strDrop (jsTrim line) 6) = none) :
    processLine parse st now line = st := by
  unfold processLine
  by_cases h1 : (!strStartsWith (jsTrim line) "data: ") = true
  · rw [if_pos h1]
  · rw [if_neg h1]
    by_cases h2 : strDrop (jsTrim line) 6 = "[DONE]"
    · rw [if_pos h2]
    · rw [if_neg h2, hparse]

/-- C8: an SSE line whose `data: ` payload fails to parse as a JSON
document is discarded and processing continues with the next line: the
whole run over any surrounding lines equals the run without the malformed
line (so every subsequent well-formed event is still processed), and the
terminal notification still fires, unchanged and through the success
channel. -/
theorem C8_malformed_event_skipped (parse : String → Option (String × String))
    (pre post : List (Nat × String)) (t : Nat) (bad : String)
    (hparse : parse (strDrop (jsTrim bad) 6) = none) :
    runLines parse (pre ++ (t, bad) :: post) = runLines parse (pre ++ post) ∧
    lineStreamTerminal parse (pre ++ (t, bad) :: post) =
      lineStreamTerminal parse (pre ++ post) ∧
    (lineStreamTerminal parse (pre ++ (t, bad) :: post)).isError = false := by
  have hrun : runLines parse (pre ++ (t, bad) :: post) = runLines parse (pre ++ post) := by
    unfold runLines
    rw [List.foldl_append, List.foldl_append, List.foldl_cons,
      processLine_unparsable parse _ t bad hparse]
  exact ⟨hrun, by rw [lineStreamTerminal, lineStreamTerminal, hrun], rfl⟩

/-- Witness for C8 at a concrete input: a parser accepting exactly the
payload `ok`, and a line with an unparsable payload sitting between two
well-formed lines. -/
theorem C8_malformed_event_skipped_witness :
    (fun s => if s = "ok" then some ("x", "") else none) (strDrop (jsTrim "data: \x7bgarbage") 6) = none ∧
    (runLines (fun s => if s = "ok" then some ("x", "") else none)
        ([(10, "data: ok")] ++ (20, "data: \x7bgarbage") :: [(60, "data: ok")]) =
      runLines (fun s => if s = "ok" then some ("x", "") else none)
        ([(10, "data: ok")] ++ [(60, "data: ok")]) ∧
    lineStreamTerminal (fun s => if s = "ok" then some ("x", "") else none)
        ([(10, "data: ok")] ++ (20, "data: \x7bgarbage") :: [(60, "data: ok")]) =
      lineStreamTerminal (fun s => if s = "ok" then some ("x", "") else none)
        ([(10, "data: ok")] ++ [(60, "data: ok")]) ∧
    (lineStreamTerminal (fun s => if s = "ok" then some ("x", "") else none)
        ([(10, "data: ok")] ++ (20, "data: \x7bgarbage") :: [(60, "data: ok")])).isError = false) :=
  ⟨by decide, C8_malformed_event_skipped _ _ _ _ _ (by decide)⟩

/-- C9 counterexample: in non-streaming mode, with the server-reported
counter `usage.completion_tokens` present with value `0` and an
eight-character final content, the terminal stats carry token count `2`
(the length estimate), not the present counter value `0` — the JS `||`
treats a present `0` as absent. -/
theorem C9_counterexample :
    (some 0 : Option Nat).isSome = true ∧
    nonStreamingTerminal true 200 "OK"
        (some { content := some "abcdefgh", reasoning_content := none, reasoning := none })
        (some 0) =
      Terminal.finish "abcdefgh" 2 ∧
    nsTokenCount (some 0) "abcdefgh" ≠ 0 := by
  refine ⟨rfl, ?_, by decide⟩
  decide

/-- C9 amended: in non-streaming mode the token count in the terminal
stats equals `usage.completion_tokens` whenever that counter is present
and non-zero; when the counter is absent — or present but equal to `0`,
which the JS `||` conflates with absence — it equals the estimate of one
token per four characters of the final content (ceiling of length/4). -/
theorem C9_token_count_source (m : NSMessage) (status : Nat) (statusText : String) :
    (∀ n : Nat,
      nonStreamingTerminal true status statusText (some m) (some (n + 1)) =
        Terminal.finish (nsContent m) (n + 1)) ∧
    nonStreamingTerminal true status statusText (some m) none =
      Terminal.finish (nsContent m) (((nsContent m).length + 3) / 4) ∧
    nonStreamingTerminal true status statusText (some m) (some 0) =
      Terminal.finish (nsContent m) (((nsContent m).length + 3) / 4) := by
  refine ⟨fun n => ?_, ?_, ?_⟩ <;> simp [nonStreamingTerminal, nsTokenCount]

/-- C3 counterexample: the cancellation detected before the request
completes (`fetchAborted`) and the cancellation detected mid-read are
both delivered through the `onError` channel — the very channel genuine
errors (such as an HTTP 500) use.  `streamCompletion`'s callback
interface has no distinguished cancellation-kind terminal notification. -/
theorem C3_counterexample :
    (streamingTerminal TransportOutcome.fetchAborted).isError = true ∧
    (streamingTerminal
        (TransportOutcome.response true 200 "OK" [] StreamEnd.abortedMidRead)).isError = true ∧
    (streamingTerminal
        (TransportOutcome.response false 500 "Internal Server Error" [] StreamEnd.done)).isError
      = true ∧
    streamingTerminal TransportOutcome.fetchAborted = Terminal.error abortError := by
  exact ⟨rfl, rfl, rfl, rfl⟩

/-- C3 amended: cancellation is routed through the same `onError` channel
as genuine errors, but carries the distinguished error name
`"AbortError"`, which no genuine engine error carries (its errors are
named `"Error"`, network faults `"TypeError"`); the Generation
Controller's `onError` checks that name and returns with the message list
untouched, so a cancellation is never rendered to the user as a failure. -/
theorem C3_cancellation_same_channel_distinct_name :
    streamingTerminal TransportOutcome.fetchAborted = Terminal.error abortError ∧
    (∀ (events : List Ev) (status : Nat) (statusText : String),
      streamingTerminal (TransportOutcome.response true status statusText events
        StreamEnd.abortedMidRead) = Terminal.error abortError) ∧
    abortError.name = "AbortError" ∧
    (∀ (events : List Ev) (status : Nat) (statusText : String) (ending : StreamEnd),
      streamingTerminal (TransportOutcome.response false status statusText events ending) =
        Terminal.error { name := "Error"
                         message := "API Error: " ++ toString status ++ " " ++ statusText }) ∧
    (∀ msg : String,
      streamingTerminal (TransportOutcome.networkError msg) =
        Terminal.error { name := "TypeError", message := msg }) ∧
    ("Error" ≠ "AbortError" ∧ "TypeError" ≠ "AbortError") ∧
    (∀ (messages : List Message) (targetIndex : Option Nat) (msg : String),
      onErrorUpdate messages targetIndex { name := "AbortError", message := msg } = messages) := by
  refine ⟨rfl, fun _ _ _ => rfl, rfl, fun _ _ _ _ => rfl, fun _ => rfl, by decide, ?_⟩
  intro messages targetIndex msg
  simp [onErrorUpdate]

/-- C4 counterexample: with partial content `"Hello par"` already
streamed into the existing target turn, a genuine error replaces the
whole turn with the rendered error message; the partial content is not
left in place and no marker is appended to it. -/
theorem C4_counterexample :
    onErrorUpdate
        [{ role := .user, content := "hi" },
         { role := .assistant, content := "Hello par" }]
        (some 1) { name := "Error", message := "boom" } =
      [{ role := .user, content := "hi" },
       { role := .assistant, content := "**Error**: boom" }] ∧
    strStartsWith "**Error**: boom" "Hello par" = false := by
  exact ⟨by decide, by decide⟩

/-- C4 amended: when a generation for an existing, in-range target turn
ends with a genuine (non-abort) error, the Generation Controller replaces
the target turn wholesale with the assistant turn
`**Error**: <message>` — regardless of whether partial content had
already streamed, which is discarded rather than kept with an appended
marker; when the target index is absent or out of range the error turn is
appended at the end instead. -/
theorem C4_error_replaces_turn (messages : List Message) (i : Nat) (e : JsError)
    (hname : e.name ≠ "AbortError") (hi : i < messages.length) :
    onErrorUpdate messages (some i) e =
      messages.set i { role := .assistant, content := "**Error**: " ++ e.message } ∧
    onErrorUpdate messages none e =
      messages ++ [{ role := .assistant, content := "**Error**: " ++ e.message }] := by
  constructor
  · simp [onErrorUpdate, hname, hi]
  · simp [onErrorUpdate, hname]

/-- Witness for C4 at a concrete input: a two-turn conversation, target
turn 1 holding streamed partial content, error named `"Error"`. -/
theorem C4_error_replaces_turn_witness :
    ((JsError.mk "Error" "boom").name ≠ "AbortError" ∧
      1 < ([{ role := .user, content := "hi" },
            { role := .assistant, content := "Hello par" }] : List Message).length) ∧
    (onErrorUpdate
        [{ role := .user, content := "hi" },
         { role := .assistant, content := "Hello par" }]
        (some 1) (JsError.mk "Error" "boom") =
      ([{ role := .user, content := "hi" },
        { role := .assistant, content := "Hello par" }] : List Message).set 1
        { role := .assistant, content := "**Error**: " ++ (JsError.mk "Error" "boom").message } ∧
    onErrorUpdate
        [{ role := .user, content := "hi" },
         { role := .assistant, content := "Hello par" }]
        none (JsError.mk "Error" "boom") =
      [{ role := .user, content := "hi" },
       { role := .assistant, content := "Hello par" }] ++
        [{ role := .assistant, content := "**Error**: " ++ (JsError.mk "Error" "boom").message }]) :=
  ⟨⟨by decide, by decide⟩, C4_error_replaces_turn _ 1 _ (by decide) (by decide)⟩

/-- C5 counterexample: with a generation already in flight
(`isLoading = true`) for conversation `"A"`, `handleSendMessage` — the
entry point that invokes `processGeneration` — does not reject: it
appends the user turn and a fresh assistant turn and sets off a new
generation for that same conversation.  Moreover the guard that does
exist is the single app-wide flag: switching to conversation `"B"` is a
no-op while loading, so no generation can be started for a different
conversation either — enforcement is global, not per-conversation. -/
theorem C5_counterexample :
    (handleSendMessage
        { isLoading := true
          currentChatId := some "A"
          messages := [{ role := .user, content := "q" }]
          sessions := [("A", [{ role := .user, content := "q" }]), ("B", [])] }
        "new" "hello").messages =
      [{ role := .user, content := "q" }, { role := .user, content := "hello" },
       { role := .assistant, content := "" }] ∧
    (handleSendMessage
        { isLoading := true
          currentChatId := some "A"
          messages := [{ role := .user, content := "q" }]
          sessions := [("A", [{ role := .user, content := "q" }]), ("B", [])] }
        "new" "hello").messages ≠ [{ role := .user, content := "q" }] ∧
    handleSelectChat
        { isLoading := true
          currentChatId := some "A"
          messages := [{ role := .user, content := "q" }]
          sessions := [("A", [{ role := .user, content := "q" }]), ("B", [])] } "B" =
      { isLoading := true
        currentChatId := some "A"
        messages := [{ role := .user, content := "q" }]
        sessions := [("A", [{ role := .user, content := "q" }]), ("B", [])] } := by
  exact ⟨by decide, by decide, by decide⟩

/-- C5 amended: neither `handleSendMessage` nor `processGeneration`
checks the in-flight flag — sending always appends the user turn plus an
empty assistant turn and starts a generation; the in-flight guard exists
only in `handleRegenerate` (a no-op while loading) and in conversation
switching (`handleSelectChat` is a no-op while loading), and it is the
single app-wide `isLoading` flag, so the restriction it enforces is
global (at most one generation in the whole app, hence per conversation
by inclusion), not per-conversation. -/
theorem C5_single_flight_global_not_per_conversation :
    (∀ (hasChatId : Bool) (messages : List Message),
      handleRegenerate true hasChatId messages = (messages, RegenOutcome.noop)) ∧
    (∀ (cur : Option String) (messages : List Message)
        (sessions : List (String × List Message)) (id : String),
      handleSelectChat
          { isLoading := true, currentChatId := cur
            messages := messages, sessions := sessions } id =
        { isLoading := true, currentChatId := cur
          messages := messages, sessions := sessions }) ∧
    (∀ (st : CtrlState) (newId content : String) (images : List String),
      (handleSendMessage st newId content images).isLoading = true ∧
      (handleSendMessage st newId content images).messages =
        st.messages ++ [{ role := .user, content := content, images := images },
                        { role := .assistant, content := "" }]) := by
  refine ⟨fun hasChatId messages => ?_, fun cur ms ss id => ?_, fun st newId content images => ?_⟩
  · simp [handleRegenerate]
  · simp [handleSelectChat]
  · cases hcur : st.currentChatId <;>
      simp [handleSendMessage, processGenerationStart, hcur]

/-- C10: `handleVersionChange` invoked on an existing turn that has no
siblings list, or with a version index that is not a valid index into
that turn's siblings, is a complete no-op: the message list is returned
unchanged (so every turn's content, stats and siblingIndex are unchanged)
and nothing is persisted. -/
theorem C10_version_change_invalid_noop (messages : List Message)
    (index newVersionIndex : Nat) (hasChatId : Bool) (msg : Message)
    (hmsg : messages.get? index = some msg)
    (hinvalid : msg.siblings = none ∨
      ∃ sibs, msg.siblings = some sibs ∧ sibs.get? newVersionIndex = none) :
    handleVersionChange messages index newVersionIndex hasChatId =
      some (messages, false) := by
  unfold handleVersionChange
  rw [hmsg]
  rcases hinvalid with h | ⟨sibs, hs, hv⟩
  · simp [h]
  · rw [List.get?_eq_getElem?] at hv
    simp [hs, hv]

/-- Witness for C10 at concrete inputs: a turn whose one-entry siblings
list is too short for the requested version index 5. -/
theorem C10_version_change_invalid_noop_witness :
    ([msgWithOneSibling].get? 0 = some msgWithOneSibling ∧
      (msgWithOneSibling.siblings = none ∨
        ∃ sibs, msgWithOneSibling.siblings = some sibs ∧ sibs.get? 5 = none)) ∧
    handleVersionChange [msgWithOneSibling] 0 5 true = some ([msgWithOneSibling], false) :=
  ⟨⟨rfl, Or.inr ⟨[{ role := .assistant, content := "a", stats := none }], rfl, rfl⟩⟩,
    C10_version_change_invalid_noop _ 0 5 true _ rfl
      (Or.inr ⟨[{ role := .assistant, content := "a", stats := none }], rfl, rfl⟩)⟩

/-- Characterization of `writeActive` when the turn carries a siblings
list and an in-range sibling index. -/
theorem writeActive_eq {msg : Message} {sibs : List SibEntry} {i : Nat} {old : SibEntry}
    (hs : msg.siblings = some sibs) (hi : msg.siblingIndex = some i)
    (hold : sibs.get? i = some old) (content : String) (stats : MsgStats) :
    writeActive msg content stats =
      { msg with
          content := content
          stats := some stats
          siblings :=
            some (sibs.set i { old with content := content, stats := some stats }) } := by
  unfold writeActive
  rw [List.get?_eq_getElem?] at hold
  simp [hs, hi, hold]

/-- C6: after every `writeActive` call — the mutation applied to the
target turn by every partial (`onUpdate`) and terminal (`onFinish`)
notification — if the turn has a siblings list and a (valid) sibling
index then `siblings[siblingIndex]` equals the turn's top-level
`{content, stats}` exactly; the invariant holds on every such mutation,
not merely at creation. -/
theorem C6_writeActive_sibling_mirror (messages : List Message) (targetIndex : Option Nat)
    (content : String) (stats : MsgStats) (msg : Message) (sibs : List SibEntry) (i : Nat)
    (hmsg : messages.get? (targetIndex.getD (messages.length - 1)) = some msg)
    (hs : msg.siblings = some sibs) (hi : msg.siblingIndex = some i)
    (hlt : i < sibs.length) :
    ∃ m' sibs' e,
      (applyWrite messages targetIndex content stats).get?
          (targetIndex.getD (messages.length - 1)) = some m' ∧
      m'.content = content ∧ m'.stats = some stats ∧
      m'.siblings = some sibs' ∧ m'.siblingIndex = some i ∧
      sibs'.get? i = some e ∧ e.content = m'.content ∧ e.stats = m'.stats := by
  have hidx : targetIndex.getD (messages.length - 1) < messages.length := by
    obtain ⟨h, -⟩ := List.get?_eq_some.mp hmsg
    exact h
  have hold : sibs.get? i = some (sibs.get ⟨i, hlt⟩) := List.get?_eq_get hlt
  have hw := writeActive_eq hs hi hold content stats
  refine ⟨writeActive msg content stats,
    sibs.set i { sibs.get ⟨i, hlt⟩ with content := content, stats := some stats },
    { sibs.get ⟨i, hlt⟩ with content := content, stats := some stats },
    ?_, by rw [hw], by rw [hw], by rw [hw], by rw [hw]; exact hi, ?_, by rw [hw], by rw [hw]⟩
  · simp only [applyWrite]
    rw [hmsg, List.get?_eq_getElem?, List.getElem?_set_self]
    exact hidx
  · rw [List.get?_eq_getElem?, List.getElem?_set_self]
    simpa using hlt

/-- Witness for C6 at a concrete input: the fixture turn with a one-entry
siblings list and sibling index 0, written with fresh content and stats. -/
theorem C6_writeActive_sibling_mirror_witness :
    (([msgWithOneSibling].get? ((some 0 : Option Nat).getD
          (([msgWithOneSibling] : List Message).length - 1)) = some msgWithOneSibling) ∧
      msgWithOneSibling.siblings =
        some [{ role := .assistant, content := "a", stats := none }] ∧
      msgWithOneSibling.siblingIndex = some 0 ∧
      0 < ([{ role := .assistant, content := "a", stats := none }] : List SibEntry).length) ∧
    (∃ m' sibs' e,
      (applyWrite [msgWithOneSibling] (some 0) "fresh" (MsgStats.mk 3 2 (3 / 2))).get?
          ((some 0 : Option Nat).getD (([msgWithOneSibling] : List Message).length - 1))
        = some m' ∧
      m'.content = "fresh" ∧ m'.stats = some (MsgStats.mk 3 2 (3 / 2)) ∧
      m'.siblings = some sibs' ∧ m'.siblingIndex = some 0 ∧
      sibs'.get? 0 = some e ∧ e.content = m'.content ∧ e.stats = m'.stats) :=
  ⟨⟨rfl, rfl, rfl, by decide⟩,
    C6_writeActive_sibling_mirror [msgWithOneSibling] (some 0) "fresh"
      (MsgStats.mk 3 2 (3 / 2)) msgWithOneSibling
      [{ role := .assistant, content := "a", stats := none }] 0 rfl rfl rfl (by decide)⟩

/-- C7: `handleRegenerate` on a final assistant turn with no prior
siblings produces a 2-element siblings list whose index 0 equals the
turn's pre-regeneration `{content, stats}` (and role) exactly, appends a
new empty `{content := "", stats := none}` entry, sets `siblingIndex` to
the new entry's index 1, mirrors the new empty entry into the turn's
top-level fields, and starts a generation targeting the existing turn
index whose request context is exactly the turns strictly before the
regenerated turn. -/
theorem C7_first_regeneration (pre : List Message) (lastMsg : Message)
    (hrole : lastMsg.role = Role.assistant) (hsib : lastMsg.siblings = none) :
    handleRegenerate false true (pre ++ [lastMsg]) =
      (pre ++ [{ lastMsg with
                  content := ""
                  stats := none
                  siblings := some
                    [{ role := lastMsg.role, content := lastMsg.content, stats := lastMsg.stats },
                     { role := .assistant, content := "", stats := none }]
                  siblingIndex := some 1 }],
       RegenOutcome.regenerate pre pre.length) := by
  unfold handleRegenerate
  rw [if_neg (by simp)]
  rw [List.getLast?_concat]
  simp only [hrole, hsib, Option.getD_some, List.length_append, List.length_singleton,
    List.singleton_append, List.length_cons, List.length_nil, List.dropLast_concat, if_pos rfl]
  rw [show pre.length + 1 - 1 = pre.length from rfl]
  rw [List.set_append_right _ _ (Nat.le_refl _)]
  simp [hrole]

/-- Witness for C7 at a concrete input: a one-turn context followed by an
assistant turn carrying content and no siblings. -/
theorem C7_first_regeneration_witness :
    (({ role := .assistant, content := "v1" } : Message).role = Role.assistant ∧
      ({ role := .assistant, content := "v1" } : Message).siblings = none) ∧
    handleRegenerate false true
        ([{ role := .user, content := "q" }] ++ [{ role := .assistant, content := "v1" }]) =
      ([{ role := .user, content := "q" }] ++
        [{ ({ role := .assistant, content := "v1" } : Message) with
            content := ""
            stats := none
            siblings := some
              [{ role := ({ role := .assistant, content := "v1" } : Message).role
                 content := ({ role := .assistant, content := "v1" } : Message).content
                 stats := ({ role := .assistant, content := "v1" } : Message).stats },
               { role := .assistant, content := "", stats := none }]
            siblingIndex := some 1 }],
       RegenOutcome.regenerate [{ role := .user, content := "q" }]
         ([{ role := .user, content := "q" }] : List Message).length) :=
  ⟨⟨rfl, rfl⟩,
    C7_first_regeneration [{ role := .user, content := "q" }]
      { role := .assistant, content := "v1" } rfl rfl⟩

end VllmBench
